import Mathlib

/-!
Verification development for the Daily Progress Tracker web application
(src/1.4.3ReactTest/src1/App2.jsx and the near-duplicate local-only variant
src/unnamed/part_000).

Modelling conventions (shallow embedding):
* Calendar days are modelled as integers (days since an arbitrary epoch);
  stepping a `Date` cursor back one calendar day is subtraction by 1, and the
  ISO `YYYY-MM-DD` strings stored in habit histories / entry dates are
  identified with their day numbers (the mapping is a bijection on valid
  dates).
* Timestamps (JavaScript `Date` epoch values) are modelled as integers in
  milliseconds; `new Date(e.date)` parses a date-only string to midnight,
  i.e. `e.date * dayMs`.
* JavaScript numbers are modelled as exact rationals (`ℚ`); `Number(s)` on a
  form string is modelled by the already-parsed value `Option ℚ`, where
  `none` stands for `NaN` (parse failure).  The JavaScript expression
  `x || d` on numbers is `jsOr`, which yields `d` exactly when `x` is `NaN`
  or `0` (the falsy numbers).
* Strings are `List Char`; JavaScript `Array.join(sep)` is `joinSep`.
* Thrown exceptions are modelled with `Option` (`none` = the operation
  throws a catchable error).
-/

/- ----------------- Data model ----------------- -/

/-- One journal record, as constructed by `addEntry` in App2.jsx
(lines 187–204) / part_000 (lines 44–65). -/
structure Entry where
  id : List Char
  date : ℤ
  plannedTasks : ℚ
  completedTasks : ℚ
  tasksNotes : List Char
  wins : List Char
  challenges : List Char
  mood : ℚ
  tags : List (List Char)
  minutesFocused : ℚ
  createdAt : List Char
deriving DecidableEq

/-- The form state feeding `addEntry`.  Numeric fields hold the result of
JavaScript `Number(string)` on the raw input: `none` models `NaN`
(a string that fails to parse as a number); `some q` models a successful
parse, e.g. `Number("") = some 0`, `Number("-3") = some (-3)`. -/
structure Form where
  date : ℤ
  plannedTasks : Option ℚ
  completedTasks : Option ℚ
  mood : Option ℚ
  minutesFocused : Option ℚ
  tasksNotes : List Char
  wins : List Char
  challenges : List Char
  tags : List Char
deriving DecidableEq

/-- JavaScript `x || d` for a number `x` (modelled as `Option ℚ`, `none` =
`NaN`): returns `d` when `x` is falsy (`NaN` or `0`), else `x`. -/
def jsOr (v : Option ℚ) (d : ℚ) : ℚ :=
  match v with
  | none => d
  | some q => if q = 0 then d else q

/-- JavaScript `String.trim` on a character list. -/
def trimChars (s : List Char) : List Char :=
  ((s.dropWhile Char.isWhitespace).reverse.dropWhile Char.isWhitespace).reverse

/-- `form.tags.split(",").map(t => t.trim()).filter(Boolean)` from
`addEntry`. -/
def splitTags (s : List Char) : List (List Char) :=
  ((s.splitOn ',').map trimChars).filter (fun t => t ≠ [])

/-- `addEntry` (App2.jsx lines 187–204; identically part_000 lines 44–65):
builds the new entry from the form.  `idStr` models `Date.now().toString()`
and `createdAt` models `new Date().toISOString()` (both external clock
reads, passed explicitly). -/
def addEntry (form : Form) (idStr createdAt : List Char) : Entry :=
  { id := idStr
    date := form.date
    plannedTasks := jsOr form.plannedTasks 0
    completedTasks := jsOr form.completedTasks 0
    tasksNotes := form.tasksNotes
    wins := form.wins
    challenges := form.challenges
    mood := jsOr form.mood 3
    tags := splitTags form.tags
    minutesFocused := jsOr form.minutesFocused 0
    createdAt := createdAt }

/- ----------------- Metrics engine (analytics) ----------------- -/

/-- `entries.reduce((s, r) => s + (r.plannedTasks || 0), 0)`
(App2.jsx line 227). -/
def totalPlanned (entries : List Entry) : ℚ :=
  entries.foldl (fun s r => s + jsOr (some r.plannedTasks) 0) 0

/-- `entries.reduce((s, r) => s + (r.completedTasks || 0), 0)`
(App2.jsx line 228). -/
def totalCompleted (entries : List Entry) : ℚ :=
  entries.foldl (fun s r => s + jsOr (some r.completedTasks) 0) 0

/-- JavaScript `+x.toFixed(1)` on an exact value: round to one decimal
place, ties away from zero upward (ECMAScript `toFixed` picks the larger
candidate on a tie). -/
def round1 (q : ℚ) : ℚ :=
  (⌊q * 10 + 1 / 2⌋ : ℚ) / 10

/-- `successRate = totalPlanned ? +((totalCompleted / totalPlanned) * 100).toFixed(1) : null`
(App2.jsx line 230; identically part_000 line 141).  A JavaScript number is
falsy exactly when it is `0` (or `NaN`, excluded here by typing). -/
def successRate (entries : List Entry) : Option ℚ :=
  if totalPlanned entries = 0 then none
  else some (round1 (totalCompleted entries / totalPlanned entries * 100))

/- ----------------- Habit streaks ----------------- -/

/-- The while-loop body of `calculateStreak` (App2.jsx lines 613–622):
`while (days.has(cursor)) { streak++; cursor -= 1 day }`.  The loop visits
strictly decreasing cursor days, each of which must lie in `days`, so it
performs at most `days.length` iterations; `fuel` is a bound on the number
of remaining iterations, chosen large enough at the call site that it is
never exhausted (`streakGo_spec` below proves the bound suffices). -/
def streakGo (days : List ℤ) : ℤ → ℕ → ℕ
  | _, 0 => 0
  | cursor, fuel + 1 =>
    if cursor ∈ days then streakGo days (cursor - 1) fuel + 1 else 0

/-- `calculateStreak(history)` (App2.jsx lines 613–622), with the implicit
`new Date()` current day made an explicit parameter `today`. -/
def calculateStreak (history : List ℤ) (today : ℤ) : ℕ :=
  streakGo history today (history.length + 1)

/-- One habit, as created by the habits view
(`{ id, name, streak: 0, history: [] }`, App2.jsx line 501) and updated by
`markHabitLocal`.  The `name` field is irrelevant to the claims and
omitted. -/
structure Habit where
  id : ℕ
  history : List ℤ
  streak : ℕ
  last_completed : Option ℤ
deriving DecidableEq

/-- The per-habit update inside `markHabitLocal` (App2.jsx lines 601–612):
if today is already recorded the habit is unchanged, otherwise today is
appended to the history and the streak cache is recomputed for today. -/
def markHabit (today : ℤ) (hb : Habit) : Habit :=
  if today ∈ hb.history then hb
  else
    let history := hb.history ++ [today]
    { hb with
        history := history
        streak := calculateStreak history today
        last_completed := some today }

/-- `markHabitLocal(habitId, setHabits)` (App2.jsx lines 601–612): map over
the habit list, updating only the habit with the given id, with the
implicit `new Date()` current day made explicit. -/
def markHabitLocal (habitId : ℕ) (today : ℤ) (habits : List Habit) : List Habit :=
  habits.map (fun hb => if hb.id = habitId then markHabit today hb else hb)

/-- Habit states reachable in the local mode of the application, together
with the current day: a habit is born empty (`onAdd`, App2.jsx line 501) on
some day, may be marked done on the current day (`markHabitLocal`), and
days pass without any marking. -/
inductive HabitReach : Habit → ℤ → Prop
  | init (i : ℕ) (d : ℤ) : HabitReach ⟨i, [], 0, none⟩ d
  | mark (hb : Habit) (d : ℤ) : HabitReach hb d → HabitReach (markHabit d hb) d
  | wait (hb : Habit) (d d' : ℤ) : HabitReach hb d → d ≤ d' → HabitReach hb d'

/- ----------------- Weekly report window ----------------- -/

/-- Milliseconds per calendar day (no DST in the UTC model). -/
def dayMs : ℤ := 86400000

/-- `const start = new Date(now); start.setDate(now.getDate() - 6)` for
`range = "weekly"` (App2.jsx line 244): six calendar days before `now`,
keeping the time of day. -/
def weeklyStart (now : ℤ) : ℤ := now - 6 * dayMs

/-- The `selected` list of `generateReport(range = "weekly")` (App2.jsx
line 246): `entries.filter(e => new Date(e.date) >= start && new Date(e.date) <= now)`.
`new Date(e.date)` parses the date-only string to midnight, i.e.
`e.date * dayMs`; `now` is a full timestamp. -/
def reportSelectedWeekly (entries : List Entry) (now : ℤ) : List Entry :=
  entries.filter
    (fun e => decide (weeklyStart now ≤ e.date * dayMs ∧ e.date * dayMs ≤ now))

/- ----------------- CSV export ----------------- -/

/-- `s.replace(/"/g, double-quote-twice)` (App2.jsx lines 97–99): every
double quote is doubled. -/
def escQuotes : List Char → List Char
  | [] => []
  | c :: t => (if c = '"' then ['"', '"'] else [c]) ++ escQuotes t

/-- Wrap a (raw, already-escaped-or-not) field body in double quotes, as
the template literals of `toCSV` do. -/
def quoteWrapRaw (s : List Char) : List Char :=
  '"' :: (s ++ ['"'])

/-- JavaScript `Array.join(sep)`. -/
def joinSep (sep : List Char) : List (List Char) → List Char
  | [] => []
  | [x] => x
  | x :: y :: t => x ++ sep ++ joinSep sep (y :: t)

/-- The header cells of `toCSV` (App2.jsx lines 81–92). -/
def csvHeader : List (List Char) :=
  ["date".data, "plannedTasks".data, "completedTasks".data, "tasksNotes".data,
   "wins".data, "challenges".data, "mood".data, "minutesFocused".data,
   "tags".data, "createdAt".data]

/-- The row cells of `toCSV` for one entry (App2.jsx lines 93–104).
`renderN` / `renderD` model JavaScript's implicit number-to-string
conversion of the numeric and date fields during `join` (external to the
repository); note the tags cell is quote-wrapped but its quotes are NOT
doubled (there is no `.replace` on line 102). -/
def entryCells (renderN : ℚ → List Char) (renderD : ℤ → List Char)
    (r : Entry) : List (List Char) :=
  [renderD r.date,
   renderN r.plannedTasks,
   renderN r.completedTasks,
   quoteWrapRaw (escQuotes r.tasksNotes),
   quoteWrapRaw (escQuotes r.wins),
   quoteWrapRaw (escQuotes r.challenges),
   renderN r.mood,
   renderN r.minutesFocused,
   quoteWrapRaw (joinSep ", ".data r.tags),
   r.createdAt]

/-- `toCSV(entries)` (App2.jsx lines 80–106; identically `exportCSV`,
part_000 lines 72–100): `[header, ...rows].map(r => r.join(",")).join("\n")`. -/
def toCSV (renderN : ℚ → List Char) (renderD : ℤ → List Char)
    (entries : List Entry) : List Char :=
  joinSep ['\n']
    ((csvHeader :: entries.map (entryCells renderN renderD)).map (joinSep [',']))

/-- The exact header row named by the specification. -/
def specHeaderRow : List Char :=
  "date,plannedTasks,completedTasks,tasksNotes,wins,challenges,mood,minutesFocused,tags,createdAt".data

/-- One serialized row as the specification (§6) describes it, with the
claim's reading that ALL four text fields — including the joined tags —
have their internal double quotes doubled before quote-wrapping. -/
def specRowClaim (renderN : ℚ → List Char) (renderD : ℤ → List Char)
    (r : Entry) : List Char :=
  renderD r.date ++ ",".data ++
  renderN r.plannedTasks ++ ",".data ++
  renderN r.completedTasks ++ ",".data ++
  quoteWrapRaw (escQuotes r.tasksNotes) ++ ",".data ++
  quoteWrapRaw (escQuotes r.wins) ++ ",".data ++
  quoteWrapRaw (escQuotes r.challenges) ++ ",".data ++
  renderN r.mood ++ ",".data ++
  renderN r.minutesFocused ++ ",".data ++
  quoteWrapRaw (escQuotes (joinSep ", ".data r.tags)) ++ ",".data ++
  r.createdAt

/-- The whole CSV document as the claim describes it: the exact header row,
then one row per entry, rows separated by a newline. -/
def specCSVClaim (renderN : ℚ → List Char) (renderD : ℤ → List Char)
    (entries : List Entry) : List Char :=
  specHeaderRow ++
    (entries.map (specRowClaim renderN renderD)).foldr
      (fun row acc => '\n' :: (row ++ acc)) []

/-- One serialized row as the code actually produces it: like
`specRowClaim`, except the joined-tags field is quote-wrapped WITHOUT
doubling its internal double quotes. -/
def specRowAmended (renderN : ℚ → List Char) (renderD : ℤ → List Char)
    (r : Entry) : List Char :=
  renderD r.date ++ ",".data ++
  renderN r.plannedTasks ++ ",".data ++
  renderN r.completedTasks ++ ",".data ++
  quoteWrapRaw (escQuotes r.tasksNotes) ++ ",".data ++
  quoteWrapRaw (escQuotes r.wins) ++ ",".data ++
  quoteWrapRaw (escQuotes r.challenges) ++ ",".data ++
  renderN r.mood ++ ",".data ++
  renderN r.minutesFocused ++ ",".data ++
  quoteWrapRaw (joinSep ", ".data r.tags) ++ ",".data ++
  r.createdAt

/-- The whole CSV document with the amended (code-accurate) tags field. -/
def specCSVAmended (renderN : ℚ → List Char) (renderD : ℤ → List Char)
    (entries : List Entry) : List Char :=
  specHeaderRow ++
    (entries.map (specRowAmended renderN renderD)).foldr
      (fun row acc => '\n' :: (row ++ acc)) []

/- ----------------- Backup codec (E2EE) ----------------- -/

/-- Modelled from the spec: `btoa(String.fromCharCode(...bytes))` — the
browser's base64 encoder, a platform builtin not in the repository.  Bytes
are encoded three at a time into four sextets (values 0–63); the value 64
stands for the `=` padding character.  Faithful to standard base64 with the
character alphabet abstracted to sextet values. -/
def b64encode : List ℕ → List ℕ
  | [] => []
  | [b1] => [b1 / 4, b1 % 4 * 16, 64, 64]
  | [b1, b2] => [b1 / 4, b1 % 4 * 16 + b2 / 16, b2 % 16 * 4, 64]
  | b1 :: b2 :: b3 :: rest =>
    b1 / 4 :: (b1 % 4 * 16 + b2 / 16) :: (b2 % 16 * 4 + b3 / 64) :: b3 % 64 ::
      b64encode rest

/-- Modelled from the spec: `Uint8Array.from(atob(dataB64), c => c.charCodeAt(0))`
— the browser's base64 decoder on well-formed input (groups of four
sextets, with 64 = `=` as padding in the final group). -/
def b64decode : List ℕ → List ℕ
  | c1 :: c2 :: c3 :: c4 :: rest =>
    if c3 = 64 then [c1 * 4 + c2 / 16]
    else if c4 = 64 then [c1 * 4 + c2 / 16, c2 % 16 * 16 + c3 / 4]
    else (c1 * 4 + c2 / 16) :: (c2 % 16 * 16 + c3 / 4) :: (c3 % 4 * 64 + c4) ::
      b64decode rest
  | _ => []

/-- Modelled from the spec: the AEAD primitive behind
`crypto.subtle.encrypt/decrypt({ name: "AES-GCM", iv }, key, data)` — the
Web Crypto API, not repository code.  `enc key iv pt` returns the
ciphertext-plus-authentication-tag bytes; `dec key iv ct` returns the
plaintext, or `none` when authentication fails (the promise rejects). -/
structure AEAD where
  enc : List ℕ → List ℕ → List ℕ → List ℕ
  dec : List ℕ → List ℕ → List ℕ → Option (List ℕ)

/-- `encryptString(key, plaintext)` (App2.jsx lines 62–70): pick a 12-byte
IV (passed explicitly here; the source draws it from
`crypto.getRandomValues`), AEAD-encrypt, prepend the IV to the ciphertext,
base64-encode the combined bytes. -/
def encryptString (A : AEAD) (key iv pt : List ℕ) : List ℕ :=
  b64encode (iv ++ A.enc key iv pt)

/-- `decryptString(key, dataB64)` (App2.jsx lines 71–77): base64-decode,
split the first 12 bytes as the IV and the rest as ciphertext, AEAD-decrypt;
`none` models the rejected promise (the thrown, catchable error) on
authentication failure. -/
def decryptString (A : AEAD) (key dataB64 : List ℕ) : Option (List ℕ) :=
  let raw := b64decode dataB64
  A.dec key (raw.take 12) (raw.drop 12)

/-- A concrete AEAD instance used to instantiate the codec theorems on
executable inputs: the "ciphertext" records the key (length-prefixed) ahead
of the plaintext, and decryption authenticates by checking that recorded
key against the supplied one. -/
def tagAEAD : AEAD where
  enc := fun key _ pt => (key.length :: key) ++ pt
  dec := fun key _ ct =>
    if ct.take (key.length + 1) = key.length :: key then
      some (ct.drop (key.length + 1))
    else none

/- ----------------- Lemmas: base64 round trip ----------------- -/

theorem b64_roundtrip (bs : List ℕ) (h : ∀ b ∈ bs, b < 256) :
    b64decode (b64encode bs) = bs := by
  induction bs using b64encode.induct with
  | case1 => rfl
  | case2 b1 =>
    have h1 : b1 < 256 := h b1 (by simp)
    simp only [b64encode, b64decode, if_pos]
    simp only [List.cons.injEq, and_true]
    omega
  | case3 b1 b2 =>
    have h1 : b1 < 256 := h b1 (by simp)
    have h2 : b2 < 256 := h b2 (by simp)
    simp only [b64encode, b64decode]
    rw [if_neg (by omega)]
    simp only [if_true, List.cons.injEq, and_true]
    omega
  | case4 b1 b2 b3 rest ih =>
    have h1 : b1 < 256 := h b1 (by simp)
    have h2 : b2 < 256 := h b2 (by simp)
    have h3 : b3 < 256 := h b3 (by simp)
    have hrest : ∀ b ∈ rest, b < 256 := fun b hb => h b (by simp [hb])
    simp only [b64encode, b64decode]
    rw [if_neg (by omega), if_neg (by omega), ih hrest]
    simp only [List.cons.injEq, and_true]
    omega

theorem combined_take_12 (iv ct : List ℕ) (h : iv.length = 12) :
    (iv ++ ct).take 12 = iv := by
  rw [← h, List.take_left]

theorem combined_drop_12 (iv ct : List ℕ) (h : iv.length = 12) :
    (iv ++ ct).drop 12 = ct := by
  rw [← h, List.drop_left]

/-- Claim C1: for every AES-GCM key and plaintext, decrypting the result of
encrypting that plaintext with the same key returns the original plaintext.
The AEAD primitive is the Web Crypto API (not repository code); its
round-trip behaviour at the used inputs is the pointwise hypothesis `hdec`,
and its output being bytes is `hctB`.  The theorem shows the repository's
pipeline (IV prefixing and base64 transport) preserves that round trip. -/
theorem claim_C1_encrypt_decrypt_roundtrip (A : AEAD) (key iv pt : List ℕ)
    (hiv : iv.length = 12)
    (hivB : ∀ b ∈ iv, b < 256)
    (hctB : ∀ b ∈ A.enc key iv pt, b < 256)
    (hdec : A.dec key iv (A.enc key iv pt) = some pt) :
    decryptString A key (encryptString A key iv pt) = some pt := by
  have hall : ∀ b ∈ iv ++ A.enc key iv pt, b < 256 := by
    intro b hb
    rcases List.mem_append.mp hb with h' | h'
    exacts [hivB b h', hctB b h']
  simp only [decryptString, encryptString]
  rw [b64_roundtrip _ hall, combined_take_12 _ _ hiv, combined_drop_12 _ _ hiv]
  exact hdec

theorem claim_C1_witness :
    decryptString tagAEAD [0]
      (encryptString tagAEAD [0] (List.replicate 12 0) [7, 8]) = some [7, 8] := by
  apply claim_C1_encrypt_decrypt_roundtrip tagAEAD [0] (List.replicate 12 0) [7, 8]
  · decide
  · decide
  · decide
  · decide

/-- Claim C4: decrypting with a key different from the one used to encrypt
fails with a distinct, catchable error (here `none`, modelling the rejected
`crypto.subtle.decrypt` promise caught in `downloadBackup`), never
returning garbage plaintext.  The AEAD authentication failure at the used
inputs is the pointwise hypothesis `hauth`; the theorem shows the
repository's pipeline surfaces it as the failure value rather than as
output. -/
theorem claim_C4_wrong_key_fails (A : AEAD) (key1 key2 iv pt : List ℕ)
    (hne : key2 ≠ key1)
    (hiv : iv.length = 12)
    (hivB : ∀ b ∈ iv, b < 256)
    (hctB : ∀ b ∈ A.enc key1 iv pt, b < 256)
    (hauth : A.dec key2 iv (A.enc key1 iv pt) = none) :
    decryptString A key2 (encryptString A key1 iv pt) = none := by
  have hall : ∀ b ∈ iv ++ A.enc key1 iv pt, b < 256 := by
    intro b hb
    rcases List.mem_append.mp hb with h' | h'
    exacts [hivB b h', hctB b h']
  simp only [decryptString, encryptString]
  rw [b64_roundtrip _ hall, combined_take_12 _ _ hiv, combined_drop_12 _ _ hiv]
  exact hauth

theorem claim_C4_witness :
    decryptString tagAEAD [1]
      (encryptString tagAEAD [0] (List.replicate 12 0) [7, 8]) = none := by
  apply claim_C4_wrong_key_fails tagAEAD [0] [1] (List.replicate 12 0) [7, 8]
  · decide
  · decide
  · decide
  · decide
  · decide

/-- Claim C8: two encryptions of the same plaintext under the same key with
distinct (fresh) 12-byte nonces yield distinct ciphertext payloads — the
two-run distinctness statement over the nonce inputs, which is what nonce
freshness (`crypto.getRandomValues` drawing a new IV per call) buys. -/
theorem claim_C8_distinct_nonce_distinct_payload (A : AEAD) (key iv1 iv2 pt : List ℕ)
    (h1 : iv1.length = 12) (h2 : iv2.length = 12)
    (hne : iv1 ≠ iv2)
    (hB1 : ∀ b ∈ iv1, b < 256) (hB2 : ∀ b ∈ iv2, b < 256)
    (hc1 : ∀ b ∈ A.enc key iv1 pt, b < 256)
    (hc2 : ∀ b ∈ A.enc key iv2 pt, b < 256) :
    encryptString A key iv1 pt ≠ encryptString A key iv2 pt := by
  intro heq
  apply hne
  have hall1 : ∀ b ∈ iv1 ++ A.enc key iv1 pt, b < 256 := by
    intro b hb
    rcases List.mem_append.mp hb with h' | h'
    exacts [hB1 b h', hc1 b h']
  have hall2 : ∀ b ∈ iv2 ++ A.enc key iv2 pt, b < 256 := by
    intro b hb
    rcases List.mem_append.mp hb with h' | h'
    exacts [hB2 b h', hc2 b h']
  have hcomb : iv1 ++ A.enc key iv1 pt = iv2 ++ A.enc key iv2 pt := by
    rw [← b64_roundtrip (iv1 ++ A.enc key iv1 pt) hall1,
        ← b64_roundtrip (iv2 ++ A.enc key iv2 pt) hall2]
    exact congrArg b64decode heq
  have := congrArg (List.take 12) hcomb
  rwa [combined_take_12 _ _ h1, combined_take_12 _ _ h2] at this

theorem claim_C8_witness :
    encryptString tagAEAD [0] (List.replicate 12 0) [5] ≠
      encryptString tagAEAD [0] (1 :: List.replicate 11 0) [5] := by
  apply claim_C8_distinct_nonce_distinct_payload tagAEAD [0]
    (List.replicate 12 0) (1 :: List.replicate 11 0) [5]
  · decide
  · decide
  · decide
  · decide
  · decide
  · decide
  · decide

/- ----------------- Lemmas: streak loop ----------------- -/

/-- The `calculateStreak` while-loop, run with enough fuel, returns a value
`s` such that the `s` consecutive days ending at `cursor` are all in
`days` and the day before them is not.  The fuel bound is justified by the
strictly decreasing cursor: every iteration consumes a distinct element of
`days` that is `≤ cursor`. -/
theorem streakGo_spec (fuel : ℕ) (days : List ℤ) :
    ∀ cursor : ℤ, (days.toFinset.filter (fun d => d ≤ cursor)).card < fuel →
      (∀ k : ℕ, k < streakGo days cursor fuel → (cursor - k) ∈ days) ∧
        ((cursor - (streakGo days cursor fuel : ℤ)) ∉ days) := by
  induction fuel with
  | zero => intro cursor h; omega
  | succ n ih =>
    intro cursor hcard
    by_cases hc : cursor ∈ days
    · have hmem : cursor ∈ days.toFinset.filter (fun d => d ≤ cursor) := by
        simp [List.mem_toFinset, hc]
      have hcard' : (days.toFinset.filter (fun d => d ≤ cursor - 1)).card < n := by
        have hsub : days.toFinset.filter (fun d => d ≤ cursor - 1) ⊆
            (days.toFinset.filter (fun d => d ≤ cursor)).erase cursor := by
          intro x hx
          simp only [Finset.mem_filter, Finset.mem_erase] at hx ⊢
          exact ⟨by omega, hx.1, by omega⟩
        have h1 := Finset.card_le_card hsub
        rw [Finset.card_erase_of_mem hmem] at h1
        have h2 : 1 ≤ (days.toFinset.filter (fun d => d ≤ cursor)).card :=
          Finset.card_pos.mpr ⟨cursor, hmem⟩
        omega
      obtain ⟨ih1, ih2⟩ := ih (cursor - 1) hcard'
      rw [show streakGo days cursor (n + 1) = streakGo days (cursor - 1) n + 1 from by
        simp [streakGo, hc]]
      constructor
      · intro k hk
        match k with
        | 0 => simpa using hc
        | j + 1 =>
          have hj := ih1 j (by omega)
          have heq : cursor - ((j + 1 : ℕ) : ℤ) = (cursor - 1) - (j : ℕ) := by
            push_cast
            ring
          rw [heq]
          exact hj
      · have heq : cursor - ((streakGo days (cursor - 1) n + 1 : ℕ) : ℤ) =
            (cursor - 1) - (streakGo days (cursor - 1) n : ℕ) := by
          push_cast
          ring
        rw [heq]
        exact ih2
    · rw [show streakGo days cursor (n + 1) = 0 from by simp [streakGo, hc]]
      exact ⟨fun k hk => absurd hk (by omega), by simpa using hc⟩

/-- Claim C3: for every habit history and current day, `calculateStreak`
returns the number of consecutive calendar days ending at the current day
that are all present in the history (every day within the returned streak
is in the history, the day just before the streak is not), and in
particular it returns 0 whenever the current day is not in the history. -/
theorem claim_C3_calculateStreak_consecutive (history : List ℤ) (today : ℤ) :
    (∀ k : ℕ, k < calculateStreak history today → (today - k) ∈ history) ∧
      ((today - (calculateStreak history today : ℤ)) ∉ history) ∧
      (today ∉ history → calculateStreak history today = 0) := by
  have hcard : (history.toFinset.filter (fun d => d ≤ today)).card <
      history.length + 1 := by
    have h1 : (history.toFinset.filter (fun d => d ≤ today)).card ≤
        history.toFinset.card := Finset.card_filter_le _ _
    have h2 : history.toFinset.card ≤ history.length := history.toFinset_card_le
    omega
  obtain ⟨h1, h2⟩ := streakGo_spec (history.length + 1) history today hcard
  refine ⟨h1, h2, fun hno => ?_⟩
  simp only [calculateStreak, streakGo, hno, if_false]

theorem claim_C3_witness :
    ((0 : ℤ) - ((0 : ℕ) : ℤ)) ∈ ([0, -1, -2] : List ℤ) ∧
      calculateStreak [5] 7 = 0 :=
  ⟨(claim_C3_calculateStreak_consecutive [0, -1, -2] 0).1 0 (by decide),
   (claim_C3_calculateStreak_consecutive [5] 7).2.2 (by decide)⟩

/- ----------------- Claims: analytics and report ----------------- -/

/-- Claim C2: for every snapshot, `successRate` is null iff `totalPlanned`
is 0; otherwise it equals `totalCompleted / totalPlanned * 100` rounded to
one decimal place. -/
theorem claim_C2_successRate_null_iff (entries : List Entry) :
    (successRate entries = none ↔ totalPlanned entries = 0) ∧
      (totalPlanned entries ≠ 0 →
        successRate entries =
          some (round1 (totalCompleted entries / totalPlanned entries * 100))) := by
  unfold successRate
  by_cases h : totalPlanned entries = 0 <;> simp [h]

/-- A concrete one-entry snapshot: 2 planned, 1 completed. -/
def sampleEntry : Entry :=
  { id := [], date := 0, plannedTasks := 2, completedTasks := 1, tasksNotes := [],
    wins := [], challenges := [], mood := 3, tags := [], minutesFocused := 0,
    createdAt := [] }

theorem claim_C2_witness :
    successRate [sampleEntry] =
      some (round1 (totalCompleted [sampleEntry] / totalPlanned [sampleEntry] * 100)) :=
  (claim_C2_successRate_null_iff [sampleEntry]).2
    (by norm_num [totalPlanned, jsOr, sampleEntry])

/- ----------------- Claims: habit streak cache (C6) ----------------- -/

/-- Claim C6 fails on the code: a habit marked on day 0 is a reachable
state on day 1 (a day passes without a new marking), and its cached
`streak` (1) differs from recomputing `calculateStreak` from its history on
day 1 (0, since day 1 is not in the history). -/
theorem claim_C6_counterexample :
    HabitReach (markHabit 0 ⟨0, [], 0, none⟩) 1 ∧
      (markHabit 0 ⟨0, [], 0, none⟩).streak ≠
        calculateStreak (markHabit 0 ⟨0, [], 0, none⟩).history 1 :=
  ⟨HabitReach.wait _ 0 1 (HabitReach.mark _ 0 (HabitReach.init 0 0)) (by norm_num),
   by decide⟩

/-- Claim C6, amended: the cached `streak` agrees with the recomputation
only at the moment of marking — immediately after `markHabit` records a
fresh day `d`, the cache equals `calculateStreak` of the updated history
evaluated on day `d` (on later days without a marking the cache goes stale,
as the counterexample shows). -/
theorem claim_C6_streak_cache_at_marking (hb : Habit) (d : ℤ)
    (h : d ∉ hb.history) :
    (markHabit d hb).streak = calculateStreak (markHabit d hb).history d := by
  simp [markHabit, h]

theorem claim_C6_witness :
    (markHabit 0 ⟨0, [], 0, none⟩).streak =
      calculateStreak (markHabit 0 ⟨0, [], 0, none⟩).history 0 :=
  claim_C6_streak_cache_at_marking ⟨0, [], 0, none⟩ 0 (by decide)

/- ----------------- Claims: weekly report window (C5) ----------------- -/

/-- An entry dated calendar day 0, with all other fields inert. -/
def entryDay0 : Entry :=
  { id := [], date := 0, plannedTasks := 0, completedTasks := 0, tasksNotes := [],
    wins := [], challenges := [], mood := 3, tags := [], minutesFocused := 0,
    createdAt := [] }

/-- Claim C5 fails on the code: with `now` one millisecond past midnight of
calendar day 6 (so `entryDay0` is dated exactly 6 calendar days before
`now`), the weekly report excludes the entry, because the filter compares
the entry's midnight timestamp with `now - 6 days`, which retains the
time of day. -/
theorem claim_C5_counterexample :
    entryDay0.date = 0 ∧ 6 * dayMs ≤ 6 * dayMs + 1 ∧ 6 * dayMs + 1 < 7 * dayMs ∧
      entryDay0 ∉ reportSelectedWeekly [entryDay0] (6 * dayMs + 1) := by
  refine ⟨rfl, by norm_num, by norm_num [dayMs], ?_⟩
  decide

/-- Claim C5, amended: the weekly report selects exactly the entries whose
date's midnight timestamp lies in the inclusive window `[now − 6·24h, now]`.
Consequently an entry dated 7 (or more) calendar days before `now` is
always excluded, while an entry dated exactly 6 calendar days before `now`
is included only when `now` is exactly midnight (the counterexample shows
it is excluded one millisecond later). -/
theorem claim_C5_weekly_window (entries : List Entry) (now : ℤ) (e : Entry) :
    (e ∈ reportSelectedWeekly entries now ↔
      (e ∈ entries ∧ weeklyStart now ≤ e.date * dayMs ∧ e.date * dayMs ≤ now)) ∧
      (e.date * dayMs ≤ now - 7 * dayMs → e ∉ reportSelectedWeekly entries now) ∧
      (e ∈ entries → now = (e.date + 6) * dayMs →
        e ∈ reportSelectedWeekly entries now) := by
  have hmem : e ∈ reportSelectedWeekly entries now ↔
      (e ∈ entries ∧ weeklyStart now ≤ e.date * dayMs ∧ e.date * dayMs ≤ now) := by
    simp [reportSelectedWeekly, List.mem_filter]
  refine ⟨hmem, ?_, ?_⟩
  · intro hold hin
    have hlow := (hmem.mp hin).2.1
    simp only [weeklyStart, dayMs] at hlow hold
    omega
  · intro he hmid
    refine hmem.mpr ⟨he, ?_, ?_⟩
    · simp only [weeklyStart, dayMs, hmid]
      omega
    · simp only [dayMs, hmid]
      omega

theorem claim_C5_witness :
    entryDay0 ∈ reportSelectedWeekly [entryDay0] ((entryDay0.date + 6) * dayMs) :=
  (claim_C5_weekly_window [entryDay0] ((entryDay0.date + 6) * dayMs) entryDay0).2.2
    (by decide) rfl

/- ----------------- Claims: addEntry coercions (C9, C10) ----------------- -/

/-- A form whose planned-tasks field holds the parsed number −3 (the input
string `"-3"`, which an `<input type="number">` with no `min` accepts). -/
def formNeg : Form :=
  { date := 0, plannedTasks := some (-3), completedTasks := some 0, mood := some 3,
    minutesFocused := some 0, tasksNotes := [], wins := [], challenges := [],
    tags := [] }

/-- Claim C9 fails on the code: the form input `"-3"` for planned tasks
parses to −3, which `Number(form.plannedTasks) || 0` keeps verbatim, so the
constructed entry's `plannedTasks` is negative. -/
theorem claim_C9_counterexample :
    (addEntry formNeg [] []).plannedTasks = -3 ∧
      ¬(0 ≤ (addEntry formNeg [] []).plannedTasks) := by
  constructor
  · norm_num [addEntry, jsOr, formNeg]
  · norm_num [addEntry, jsOr, formNeg]

/-- Claim C9, amended: `plannedTasks` and `completedTasks` are 0 when the
input fails to parse as a number (`NaN`) or parses to 0 (including the
empty input); any other parsed value — including negative or fractional
numbers — is kept verbatim, so non-negativity and integrality are not
enforced. -/
theorem claim_C9_task_count_coercion (form : Form) (idStr createdAt : List Char) :
    ((form.plannedTasks = none ∨ form.plannedTasks = some 0) →
        (addEntry form idStr createdAt).plannedTasks = 0) ∧
      (∀ q : ℚ, form.plannedTasks = some q → q ≠ 0 →
        (addEntry form idStr createdAt).plannedTasks = q) ∧
      ((form.completedTasks = none ∨ form.completedTasks = some 0) →
        (addEntry form idStr createdAt).completedTasks = 0) ∧
      (∀ q : ℚ, form.completedTasks = some q → q ≠ 0 →
        (addEntry form idStr createdAt).completedTasks = q) := by
  refine ⟨fun h => ?_, fun q hq hq0 => ?_, fun h => ?_, fun q hq hq0 => ?_⟩
  · rcases h with h | h <;> simp [addEntry, jsOr, h]
  · simp [addEntry, jsOr, hq, hq0]
  · rcases h with h | h <;> simp [addEntry, jsOr, h]
  · simp [addEntry, jsOr, hq, hq0]

/-- A form with every numeric field failing to parse (`NaN`). -/
def formNaN : Form :=
  { date := 0, plannedTasks := none, completedTasks := none, mood := none,
    minutesFocused := none, tasksNotes := [], wins := [], challenges := [],
    tags := [] }

theorem claim_C9_witness :
    (addEntry formNaN [] []).plannedTasks = 0 ∧
      (addEntry formNaN [] []).completedTasks = 0 :=
  ⟨(claim_C9_task_count_coercion formNaN [] []).1 (Or.inl rfl),
   (claim_C9_task_count_coercion formNaN [] []).2.2.1 (Or.inl rfl)⟩

/-- Claim C10: whenever the mood input is non-numeric (`NaN`), empty
(`Number("") = 0`), or the number 0, the constructed entry's mood is the
default 3 — the falsy mood value is silently replaced rather than kept or
rejected. -/
theorem claim_C10_mood_default (form : Form) (idStr createdAt : List Char)
    (h : form.mood = none ∨ form.mood = some 0) :
    (addEntry form idStr createdAt).mood = 3 := by
  rcases h with h | h <;> simp [addEntry, jsOr, h]

theorem claim_C10_witness : (addEntry formNaN [] []).mood = 3 :=
  claim_C10_mood_default formNaN [] [] (Or.inl rfl)

/- ----------------- Lemmas and claims: CSV (C7) ----------------- -/

theorem joinSep_cons_foldr (sep x : List Char) (t : List (List Char)) :
    joinSep sep (x :: t) =
      x ++ t.foldr (fun row acc => sep ++ row ++ acc) [] := by
  induction t generalizing x with
  | nil => simp [joinSep]
  | cons y t' ih =>
    rw [show joinSep sep (x :: y :: t') = x ++ sep ++ joinSep sep (y :: t') from rfl,
      ih y]
    simp [List.append_assoc]

theorem comma_data : ",".data = [','] := by decide

theorem joinSep_comma_cells (renderN : ℚ → List Char) (renderD : ℤ → List Char)
    (r : Entry) :
    joinSep [','] (entryCells renderN renderD r) = specRowAmended renderN renderD r := by
  simp only [entryCells, specRowAmended, joinSep, comma_data, List.append_assoc]

theorem joinSep_comma_header : joinSep [','] csvHeader = specHeaderRow := by
  decide

/-- A render function that is irrelevant to the comparison (the claim's
example and counterexample only concern the text fields). -/
def renderNZero : ℚ → List Char := fun _ => []

/-- A date render function that is irrelevant to the comparison. -/
def renderDZero : ℤ → List Char := fun _ => []

/-- An entry whose single tag contains a double quote. -/
def entryTagQuote : Entry :=
  { id := [], date := 0, plannedTasks := 0, completedTasks := 0, tasksNotes := [],
    wins := [], challenges := [], mood := 0, tags := [['"']], minutesFocused := 0,
    createdAt := [] }

/-- Claim C7 fails on the code: for an entry whose tag contains a double
quote, the CSV produced by `toCSV` differs from the claim's format, because
the joined-tags cell is quote-wrapped without doubling its internal double
quotes (`toCSV` has no `.replace` on the tags cell, App2.jsx line 102). -/
theorem claim_C7_counterexample :
    toCSV renderNZero renderDZero [entryTagQuote] ≠
      specCSVClaim renderNZero renderDZero [entryTagQuote] := by
  decide

/-- Claim C7, amended: the CSV export consists of the exact header row
`date,plannedTasks,completedTasks,tasksNotes,wins,challenges,mood,minutesFocused,tags,createdAt`,
then one row per entry with rows separated by `\n`; the `tasksNotes`,
`wins` and `challenges` cells are wrapped in double quotes with internal
double quotes doubled; the tags list joined by `", "` is wrapped in double
quotes but its internal double quotes are NOT doubled; numeric and date
cells are unquoted.  In particular `tasksNotes` of `He said "hi"`
serializes to `"He said ""hi"""`. -/
theorem claim_C7_csv_format (renderN : ℚ → List Char) (renderD : ℤ → List Char)
    (entries : List Entry) :
    toCSV renderN renderD entries = specCSVAmended renderN renderD entries ∧
      quoteWrapRaw (escQuotes "He said \"hi\"".data) = "\"He said \"\"hi\"\"\"".data := by
  constructor
  · have hrows : (entries.map (entryCells renderN renderD)).map (joinSep [',']) =
        entries.map (specRowAmended renderN renderD) := by
      rw [List.map_map]
      exact List.map_congr_left fun r _ => joinSep_comma_cells renderN renderD r
    unfold toCSV specCSVAmended
    rw [List.map_cons, joinSep_comma_header, hrows,
      joinSep_cons_foldr ['\n'] specHeaderRow (entries.map (specRowAmended renderN renderD))]
    rfl
  · rfl
